import Mathlib

/-!
Shallow embedding of the build watcher of `copr_cli/main.py`.

The embedded code is `Commands._watch_builds` (the polling loop that tracks a
set of submitted builds to completion) together with the top-level error
rendering of `main` (the `except` clauses that turn the exceptions raised by
the watcher into an exit code and a message).

Modelling choices, each matched against the Python source:
* `self.client.get_build_details(build_id)` is the Status Source.  It is
  modelled as a pure function from the polling round and the build identifier
  to the returned record with fields `output`, `status` and `error`.
* `set(build_ids)` is modelled as `build_ids.dedup`: iteration over the
  Python set is deterministic and depends only on membership; we fix the
  first-occurrence order as the iteration order.
* `KeyboardInterrupt` is modelled by numbering the suspension points of one
  run (every status query and every `time.sleep(30)`) and letting an optional
  parameter say at which suspension point the interruption arrives.  The
  `try ... except KeyboardInterrupt: pass` wrapper makes the function return
  normally in that case, which the model renders as `Outcome.interrupted`.
* The unbounded `while` loop is run on explicit fuel; `Outcome.outOfFuel`
  marks a run whose fuel ran out while the loop was still polling.
-/


abbrev BuildId := Nat

/-- The record returned by `client.get_build_details`: the fields read by
`_watch_builds` are `output`, `status` and `error`. -/
structure BuildDetails where
  output : String
  status : String
  error : String
deriving DecidableEq

/-- The Status Source: what `get_build_details` answers at a given polling
round for a given build identifier. -/
abbrev StatusSource := Nat → BuildId → BuildDetails

/-- Line 140-141 of the source: the list of terminal statuses. -/
def terminalStatuses : List String := ["succeeded", "skipped", "failed", "canceled"]

/-- How one watch run ends.  `success` and `interrupted` are both normal
(non-raising) returns of `_watch_builds`; `requestError` models a raised
`CoprRequestException` and `buildError` a raised `CoprBuildException`,
each carrying the formatted message. -/
inductive Outcome where
  | success
  | interrupted
  | requestError (msg : String)
  | buildError (msg : String)
  | outOfFuel
deriving DecidableEq

/-- Holds exactly for the outcomes that correspond to a raised exception. -/
def Outcome.isError : Outcome → Bool
  | Outcome.requestError _ => true
  | Outcome.buildError _ => true
  | _ => false

/-- The mutable state of one `_watch_builds` run: `done`, `prevstatus` and
`failed_ids` are the variables of the source; `notes` records the emitted
status-transition prints, `queries` the performed status queries (round and
identifier, in order), `sleeps` the number of executed sleeps and `points`
the number of traversed suspension points (queries plus sleeps). -/
structure WState where
  done : List BuildId
  prevstatus : List (BuildId × String)
  failed_ids : List BuildId
  notes : List (BuildId × String)
  queries : List (Nat × BuildId)
  sleeps : Nat
  points : Nat
deriving DecidableEq

/-- Lookup in the `prevstatus` default-dict; an absent identifier reads as
`none` (the default `None` of the source). -/
def ledgerGet (l : List (BuildId × String)) (id : BuildId) : Option String :=
  match l with
  | [] => none
  | p :: rest => if p.1 == id then some p.2 else ledgerGet rest id

/-- The assignment of a new status to one identifier in the ledger. -/
def ledgerSet (l : List (BuildId × String)) (id : BuildId) (s : String) :
    List (BuildId × String) :=
  match l with
  | [] => [(id, s)]
  | p :: rest => if p.1 == id then (id, s) :: rest else p :: ledgerSet rest id s

/-- The message of the `CoprRequestException` raised at lines 127-129: the
format string interpolates the build identifier and the error detail. -/
def reqErrMsg (id : BuildId) (err : String) : String :=
  "  Build " ++ toString id ++ ": Unable to get build status: " ++ err

/-- The state right after `get_build_details` returns: line 124 performed a
query (one suspension point, one recorded query). -/
def queryState (st : WState) (round : Nat) (id : BuildId) : WState :=
  { st with points := st.points + 1, queries := st.queries ++ [(round, id)] }

/-- Lines 131-142 applied to the state after a query whose `output` was
`"ok"`: transition print plus ledger update (131-136), `failed_ids` append
(138-139), `done` add (140-142). -/
def okState (st1 : WState) (id : BuildId) (status : String) : WState :=
  let st2 : WState :=
    if ledgerGet st1.prevstatus id ≠ some status then
      { st1 with prevstatus := ledgerSet st1.prevstatus id status,
                 notes := st1.notes ++ [(id, status)] }
    else st1
  let st3 : WState :=
    if status == "failed" then
      { st2 with failed_ids := st2.failed_ids ++ [id] }
    else st2
  if terminalStatuses.contains status then
    (if st3.done.contains id then st3 else { st3 with done := st3.done ++ [id] })
  else st3

/-- One iteration of the `for build_id in watched` body (lines 120-145).
`Sum.inl` is an abnormal exit of the whole loop (exception or interruption),
`Sum.inr` the state after a normal iteration. -/
def processId (src : StatusSource) (ia : Option Nat) (round : Nat)
    (st : WState) (id : BuildId) : (Outcome × WState) ⊕ WState :=
  if st.done.contains id then Sum.inr st
  else if ia = some st.points then
    Sum.inl (Outcome.interrupted, { st with points := st.points + 1 })
  else
    let st1 : WState := queryState st round id
    let bd := src round id
    if bd.output ≠ "ok" then
      Sum.inl (Outcome.requestError (reqErrMsg id bd.error), st1)
    else
      let st4 : WState := okState st1 id bd.status
      if bd.status == "unknown" then
        Sum.inl (Outcome.buildError "Unknown status.", st4)
      else Sum.inr st4

/-- One full round of the `for build_id in watched` loop. -/
def processRound (src : StatusSource) (ia : Option Nat) (round : Nat) :
    WState → List BuildId → (Outcome × WState) ⊕ WState
  | st, [] => Sum.inr st
  | st, id :: rest =>
    match processId src ia round st id with
    | Sum.inl r => Sum.inl r
    | Sum.inr st' => processRound src ia round st' rest

/-- Equality of two lists viewed as sets: the `watched != done` test of the
source compares Python sets. -/
def eqAsSets (a b : List BuildId) : Bool :=
  a.all (fun x => b.contains x) && b.all (fun x => a.contains x)

/-- The comma-separated rendering of the failed identifiers (line 155). -/
def joinIds : List BuildId → String
  | [] => ""
  | [x] => toString x
  | x :: y :: rest => toString x ++ ", " ++ joinIds (y :: rest)

/-- The message of the `CoprBuildException` raised at lines 152-155. -/
def partialMsg (l : List BuildId) : String :=
  "Build(s) " ++ joinIds l ++ " failed."

/-- Lines 152-155: after the loop exits normally, raise on a non-empty
`failed_ids`, otherwise return. -/
def finishResult (st : WState) : Outcome × WState :=
  if st.failed_ids.isEmpty then (Outcome.success, st)
  else (Outcome.buildError (partialMsg st.failed_ids), st)

/-- The `while watched != done` loop (lines 119-150) plus the final
`failed_ids` check, run on fuel. -/
def watchLoop (src : StatusSource) (ia : Option Nat) (watched : List BuildId) :
    Nat → Nat → WState → Outcome × WState
  | fuel, round, st =>
    if eqAsSets watched st.done then finishResult st
    else
      match fuel with
      | 0 => (Outcome.outOfFuel, st)
      | fuel' + 1 =>
        match processRound src ia round st watched with
        | Sum.inl r => r
        | Sum.inr st' =>
          if eqAsSets watched st'.done then finishResult st'
          else if ia = some st'.points then
            (Outcome.interrupted, { st' with points := st'.points + 1 })
          else
            watchLoop src ia watched fuel' (round + 1)
              { st' with sleeps := st'.sleeps + 1, points := st'.points + 1 }

/-- The state at entry of the `try` block: everything empty. -/
def initState : WState := ⟨[], [], [], [], [], 0, 0⟩

/-- The function `Commands._watch_builds(build_ids)`, parametrised by the
Status Source, the interruption point (if any) and the loop fuel. -/
def watch (src : StatusSource) (ia : Option Nat) (fuel : Nat)
    (build_ids : List BuildId) : Outcome × WState :=
  watchLoop src ia build_ids.dedup fuel 0 initState

/-- The query `q` got an `"ok"` answer from the Status Source. -/
def okQuery (src : StatusSource) (q : Nat × BuildId) : Bool :=
  (src q.1 q.2).output == "ok"

/-- The query `q` got an `"ok"` answer whose status is not `"unknown"`:
such a query does not abort the watch. -/
def goodQuery (src : StatusSource) (q : Nat × BuildId) : Bool :=
  okQuery src q && (src q.1 q.2).status != "unknown"

/-- The query `q` got an `"ok"` answer with a terminal status. -/
def okTerminalQuery (src : StatusSource) (q : Nat × BuildId) : Bool :=
  okQuery src q && terminalStatuses.contains (src q.1 q.2).status

/-- The query `q` got an `"ok"` answer with status `"failed"`. -/
def okFailedQuery (src : StatusSource) (q : Nat × BuildId) : Bool :=
  okQuery src q && (src q.1 q.2).status == "failed"

/-- The statuses printed for one identifier, in emission order. -/
def notesOf (st : WState) (id : BuildId) : List String :=
  (st.notes.filter (fun p => p.1 == id)).map Prod.snd

/-- The statuses successfully observed for one identifier, in query order
(queries whose answer was not `"ok"` abort before any status handling). -/
def obsOf (src : StatusSource) (st : WState) (id : BuildId) : List String :=
  (st.queries.filter (fun q => q.2 == id && okQuery src q)).map
    (fun q => (src q.1 q.2).status)

/-- Collapse consecutive repetitions, given the previously seen value. -/
def dedupConsec : Option String → List String → List String
  | _, [] => []
  | prev, s :: rest =>
    if prev = some s then dedupConsec prev rest
    else s :: dedupConsec (some s) rest

/-! The top-level `main` (lines 1050-1068), restricted to the outcomes the
watcher can produce.  A `CoprBuildException` is rendered as
`"\nBuild error: {0}\n"` with exit code 4, a `CoprRequestException` as
`"\nSomething went wrong:\nError: {0}\n"` with exit code 1; normal returns
exit the process with code 0 and no error message. -/

structure ExitResult where
  message : String
  code : Nat
deriving DecidableEq

/-- The `except` clauses of `main` applied to a watch outcome: `some` is a
caught exception (message written to stderr, `sys.exit(code)`), `none` a
normal return. -/
def handleWatchOutcome : Outcome → Option ExitResult
  | Outcome.buildError m => some ⟨"\nBuild error: " ++ m ++ "\n", 4⟩
  | Outcome.requestError m =>
    some ⟨"\nSomething went wrong:" ++ "\nError: " ++ m ++ "\n", 1⟩
  | _ => none

/-! Status Sources used in concrete runs (spec section 8 scenarios). -/

def srcScenario1 : StatusSource := fun r _ =>
  if r = 0 then ⟨"ok", "pending", ""⟩
  else if r = 1 then ⟨"ok", "pending", ""⟩
  else ⟨"ok", "succeeded", ""⟩

def srcScenario2 : StatusSource := fun r id =>
  if r = 0 then ⟨"ok", "running", ""⟩
  else if id = 202 then ⟨"ok", "failed", ""⟩
  else ⟨"ok", "succeeded", ""⟩

/-- The previously seen value after history `l`, starting from `p`. -/
def prevOf (p : Option String) (l : List String) : Option String :=
  match l.getLast? with
  | some y => some y
  | none => p

/-- The state carried by either result of a loop-body step. -/
def exitState : (Outcome × WState) ⊕ WState → WState
  | Sum.inl r => r.2
  | Sum.inr st => st

/-- The second state is a later snapshot of the same run as the first: the
traces have only grown at the end, membership of `done` is preserved and
the suspension counter only increased. -/
structure Evolves (st st' : WState) : Prop where
  queriesExt : ∃ t, st'.queries = st.queries ++ t
  failedExt : ∃ t, st'.failed_ids = st.failed_ids ++ t
  notesExt : ∃ t, st'.notes = st.notes ++ t
  doneExt : ∀ x ∈ st.done, x ∈ st'.done
  pointsExt : st.points ≤ st'.points

/-- Every recorded query got an `"ok"` answer with a status other than
`"unknown"`; such a trace has not aborted. -/
def CleanQ (src : StatusSource) (qs : List (Nat × BuildId)) : Prop :=
  ∀ q ∈ qs, goodQuery src q = true

/-- Invariant of every state reachable while watching `watched`. -/
structure WInv (src : StatusSource) (watched : List BuildId) (st : WState) : Prop where
  doneSub : ∀ x ∈ st.done, x ∈ watched
  doneNodup : st.done.Nodup
  qIds : ∀ q ∈ st.queries, q.2 ∈ watched
  doneChar : ∀ id, id ∈ st.done ↔
    ∃ q ∈ st.queries, q.2 = id ∧ okTerminalQuery src q = true
  noRequery : st.queries.Pairwise (fun a b => a.2 = b.2 → okTerminalQuery src a = false)
  failedChar : st.failed_ids = (st.queries.filter (okFailedQuery src)).map Prod.snd
  ledgerChar : ∀ id, ledgerGet st.prevstatus id = (obsOf src st id).getLast?
  notesChar : ∀ id, notesOf st id = dedupConsec none (obsOf src st id)

/-- The possible abnormal exits of the loop body, read off the final state:
an interruption (clean trace), or a trace whose last query either failed to
retrieve (`requestError` with the identifier and the underlying error in the
message) or returned status `"unknown"` (`buildError "Unknown status."`). -/
def AbortShape (src : StatusSource) (o : Outcome) (st : WState) : Prop :=
  (o = Outcome.interrupted ∧ CleanQ src st.queries) ∨
  (∃ pre q, st.queries = pre ++ [q] ∧ CleanQ src pre ∧
    ((okQuery src q = false ∧
        o = Outcome.requestError (reqErrMsg q.2 (src q.1 q.2).error)) ∨
     (okQuery src q = true ∧ (src q.1 q.2).status = "unknown" ∧
        o = Outcome.buildError "Unknown status.")))

/-- How a whole watch run can end, read off the final state. -/
def LoopExit (src : StatusSource) (watched : List BuildId) (o : Outcome)
    (st : WState) : Prop :=
  (CleanQ src st.queries ∧
    ((o = Outcome.success ∧ st.failed_ids = [] ∧ eqAsSets watched st.done = true) ∨
     (o = Outcome.buildError (partialMsg st.failed_ids) ∧ st.failed_ids ≠ [] ∧
       eqAsSets watched st.done = true) ∨
     o = Outcome.interrupted ∨ o = Outcome.outOfFuel)) ∨
  (∃ pre q, st.queries = pre ++ [q] ∧ CleanQ src pre ∧
    ((okQuery src q = false ∧
        o = Outcome.requestError (reqErrMsg q.2 (src q.1 q.2).error)) ∨
     (okQuery src q = true ∧ (src q.1 q.2).status = "unknown" ∧
        o = Outcome.buildError "Unknown status.")))

/-- Suspension-point counter of a loop-body result. -/
def ptsOf (r : (Outcome × WState) ⊕ WState) : Nat := (exitState r).points

/-- A string literally contains another (as a contiguous run of characters). -/
def Mentions (s t : String) : Prop := ∃ a b, s.data = a ++ t.data ++ b

/-- A Status Source that always answers `"ok"` with status `"unknown"`. -/
def srcUnknown : StatusSource := fun _ _ => ⟨"ok", "unknown", ""⟩

/-- A Status Source whose query always fails (non-ok output). -/
def srcDown : StatusSource := fun _ _ => ⟨"error", "pending", "boom"⟩

/-- The Status Source of the spec scenario: both builds run in round 0; from
round 1 on, build 202 reports `"failed"` and every other build
`"succeeded"`. -/
def srcC2 : StatusSource := fun r id =>
  if r = 0 then ⟨"ok", "running", ""⟩
  else if id = 202 then ⟨"ok", "failed", ""⟩
  else ⟨"ok", "succeeded", ""⟩

/-- A Status Source that reports `"failed"` in round 0 and `"succeeded"` in
every later round: it eventually reports every identifier as `"succeeded"`
within one round, with only recognized statuses and no retrieval error. -/
def srcFailOnce : StatusSource := fun r _ =>
  if r = 0 then ⟨"ok", "failed", ""⟩ else ⟨"ok", "succeeded", ""⟩

/-- A Status Source reporting `"pending"` in round 0 and `"succeeded"` from
round 1 on. -/
def srcSlowOk : StatusSource := fun r _ =>
  if r = 0 then ⟨"ok", "pending", ""⟩ else ⟨"ok", "succeeded", ""⟩

/-- A Status Source that reports `"pending"` forever. -/
def srcPending : StatusSource := fun _ _ => ⟨"ok", "pending", ""⟩

/-! Sanity checks on concrete runs (spec section 8 scenarios). -/

example : (watch srcScenario1 none 3 [101]).1 = Outcome.success ∧
    (watch srcScenario1 none 3 [101]).2.notes =
      [(101, "pending"), (101, "succeeded")] := by
  constructor <;>
    simp [watch, watchLoop, processRound, processId, queryState, okState,
      initState, eqAsSets, finishResult, ledgerGet, ledgerSet, terminalStatuses,
      srcScenario1, List.dedup]

example : (watch srcScenario2 none 2 [201, 202]).1 =
      Outcome.buildError "Build(s) 202 failed." ∧
    (watch srcScenario2 none 2 [201, 202]).2.failed_ids = [202] := by
  constructor <;>
    simp [watch, watchLoop, processRound, processId, queryState, okState,
      initState, eqAsSets, finishResult, ledgerGet, ledgerSet, terminalStatuses,
      srcScenario2, List.dedup, partialMsg, joinIds] <;> decide

/-! ### Basic lemmas about the helper structures -/

theorem contains_iff_mem (l : List BuildId) (x : BuildId) :
    l.contains x = true ↔ x ∈ l := List.elem_iff

theorem ledgerGet_set_self (l : List (BuildId × String)) (id : BuildId) (s : String) :
    ledgerGet (ledgerSet l id s) id = some s := by
  induction l with
  | nil => simp [ledgerSet, ledgerGet]
  | cons p rest ih =>
    by_cases h : p.1 = id
    · simp [ledgerSet, ledgerGet, beq_iff_eq, h]
    · simp [ledgerSet, ledgerGet, beq_iff_eq, h, ih]

theorem ledgerGet_set_ne (l : List (BuildId × String)) (id id' : BuildId) (s : String)
    (h : id ≠ id') :
    ledgerGet (ledgerSet l id' s) id = ledgerGet l id := by
  have h' : id' ≠ id := Ne.symm h
  induction l with
  | nil => simp [ledgerSet, ledgerGet, beq_iff_eq, h']
  | cons p rest ih =>
    by_cases hp : p.1 = id'
    · simp [ledgerSet, ledgerGet, beq_iff_eq, hp, h']
    · by_cases hq : p.1 = id <;> simp [ledgerSet, ledgerGet, beq_iff_eq, hp, hq, h, ih]

theorem prevOf_concat (p : Option String) (l : List String) (x : String) :
    prevOf p (l ++ [x]) = some x := by
  simp [prevOf, List.getLast?_concat]

theorem prevOf_cons (p : Option String) (s : String) (rest : List String) :
    prevOf p (s :: rest) = prevOf (some s) rest := by
  cases rest with
  | nil => simp [prevOf]
  | cons y t =>
    simp only [prevOf, List.getLast?_cons_cons]
    cases h : (y :: t).getLast? with
    | none => simp at h
    | some z => rfl

theorem dedupConsec_concat (p : Option String) (l : List String) (x : String) :
    dedupConsec p (l ++ [x]) =
      dedupConsec p l ++ (if prevOf p l = some x then [] else [x]) := by
  induction l generalizing p with
  | nil =>
    by_cases h : p = some x <;> simp [dedupConsec, prevOf, h]
  | cons s rest ih =>
    by_cases h : p = some s <;>
      simp [dedupConsec, h, ih, prevOf_cons]

/-! ### Field computations for `okState` -/

theorem okState_queries (st1 : WState) (id : BuildId) (s : String) :
    (okState st1 id s).queries = st1.queries := by
  simp only [okState]; split_ifs <;> rfl

theorem okState_points (st1 : WState) (id : BuildId) (s : String) :
    (okState st1 id s).points = st1.points := by
  simp only [okState]; split_ifs <;> rfl

theorem okState_sleeps (st1 : WState) (id : BuildId) (s : String) :
    (okState st1 id s).sleeps = st1.sleeps := by
  simp only [okState]; split_ifs <;> rfl

theorem okState_done (st1 : WState) (id : BuildId) (s : String) :
    (okState st1 id s).done =
      if terminalStatuses.contains s && !st1.done.contains id
      then st1.done ++ [id] else st1.done := by
  simp only [okState]; split_ifs <;> simp_all

theorem okState_failed (st1 : WState) (id : BuildId) (s : String) :
    (okState st1 id s).failed_ids =
      st1.failed_ids ++ (if s == "failed" then [id] else []) := by
  simp only [okState]; split_ifs <;> simp_all

theorem okState_notes (st1 : WState) (id : BuildId) (s : String) :
    (okState st1 id s).notes =
      st1.notes ++
        (if ledgerGet st1.prevstatus id ≠ some s then [(id, s)] else []) := by
  simp only [okState]; split_ifs <;> simp_all

theorem okState_prevstatus (st1 : WState) (id : BuildId) (s : String) :
    (okState st1 id s).prevstatus =
      if ledgerGet st1.prevstatus id ≠ some s then ledgerSet st1.prevstatus id s
      else st1.prevstatus := by
  simp only [okState]; split_ifs <;> rfl

theorem okState_prev_self (st1 : WState) (id : BuildId) (s : String) :
    ledgerGet (okState st1 id s).prevstatus id = some s := by
  rw [okState_prevstatus]
  split_ifs with h1
  · exact ledgerGet_set_self _ _ _
  · push_neg at h1; exact h1

theorem okState_prev_ne (st1 : WState) (id id' : BuildId) (s : String) (h : id' ≠ id) :
    ledgerGet (okState st1 id s).prevstatus id' = ledgerGet st1.prevstatus id' := by
  rw [okState_prevstatus]
  split_ifs with h1
  · exact ledgerGet_set_ne _ _ _ _ h
  · rfl

/-! ### Case analysis of `processId` -/

theorem processId_skip (src : StatusSource) (ia : Option Nat) (round : Nat)
    (st : WState) (id : BuildId) (h : st.done.contains id = true) :
    processId src ia round st id = Sum.inr st := by
  have hm : id ∈ st.done := (contains_iff_mem _ _).mp h
  simp [processId, hm]

theorem processId_interrupt (src : StatusSource) (ia : Option Nat) (round : Nat)
    (st : WState) (id : BuildId)
    (h : st.done.contains id = false) (h2 : ia = some st.points) :
    processId src ia round st id =
      Sum.inl (Outcome.interrupted, { st with points := st.points + 1 }) := by
  have hm : id ∉ st.done := by
    intro hmem
    rw [(contains_iff_mem _ _).mpr hmem] at h
    cases h
  simp [processId, hm, h2]

theorem processId_badOutput (src : StatusSource) (ia : Option Nat) (round : Nat)
    (st : WState) (id : BuildId)
    (h : st.done.contains id = false) (h2 : ia ≠ some st.points)
    (h3 : (src round id).output ≠ "ok") :
    processId src ia round st id =
      Sum.inl (Outcome.requestError (reqErrMsg id (src round id).error),
        queryState st round id) := by
  have hm : id ∉ st.done := by
    intro hmem
    rw [(contains_iff_mem _ _).mpr hmem] at h
    cases h
  simp [processId, hm, h2, h3]

theorem processId_unknown (src : StatusSource) (ia : Option Nat) (round : Nat)
    (st : WState) (id : BuildId)
    (h : st.done.contains id = false) (h2 : ia ≠ some st.points)
    (h3 : (src round id).output = "ok") (h4 : (src round id).status = "unknown") :
    processId src ia round st id =
      Sum.inl (Outcome.buildError "Unknown status.",
        okState (queryState st round id) id (src round id).status) := by
  have hm : id ∉ st.done := by
    intro hmem
    rw [(contains_iff_mem _ _).mpr hmem] at h
    cases h
  simp [processId, hm, h2, h3, h4]

theorem processId_ok (src : StatusSource) (ia : Option Nat) (round : Nat)
    (st : WState) (id : BuildId)
    (h : st.done.contains id = false) (h2 : ia ≠ some st.points)
    (h3 : (src round id).output = "ok") (h4 : (src round id).status ≠ "unknown") :
    processId src ia round st id =
      Sum.inr (okState (queryState st round id) id (src round id).status) := by
  have hm : id ∉ st.done := by
    intro hmem
    rw [(contains_iff_mem _ _).mpr hmem] at h
    cases h
  simp [processId, hm, h2, h3, h4]

theorem processId_split (src : StatusSource) (ia : Option Nat) (round : Nat)
    (st : WState) (id : BuildId) :
    (st.done.contains id = true) ∨
    (st.done.contains id = false ∧ ia = some st.points) ∨
    (st.done.contains id = false ∧ ia ≠ some st.points ∧
      (src round id).output ≠ "ok") ∨
    (st.done.contains id = false ∧ ia ≠ some st.points ∧
      (src round id).output = "ok" ∧ (src round id).status = "unknown") ∨
    (st.done.contains id = false ∧ ia ≠ some st.points ∧
      (src round id).output = "ok" ∧ (src round id).status ≠ "unknown") := by
  by_cases h : st.done.contains id = true
  · exact Or.inl h
  · have h' : st.done.contains id = false := by simpa using h
    by_cases h2 : ia = some st.points
    · exact Or.inr (Or.inl ⟨h', h2⟩)
    · by_cases h3 : (src round id).output = "ok"
      · by_cases h4 : (src round id).status = "unknown"
        · exact Or.inr (Or.inr (Or.inr (Or.inl ⟨h', h2, h3, h4⟩)))
        · exact Or.inr (Or.inr (Or.inr (Or.inr ⟨h', h2, h3, h4⟩)))
      · exact Or.inr (Or.inr (Or.inl ⟨h', h2, h3⟩))

/-! ### State evolution -/

theorem Evolves.refl (st : WState) : Evolves st st :=
  ⟨⟨[], by simp⟩, ⟨[], by simp⟩, ⟨[], by simp⟩, fun _ hx => hx, le_refl _⟩

theorem Evolves.trans {a b c : WState} (h1 : Evolves a b) (h2 : Evolves b c) :
    Evolves a c := by
  obtain ⟨⟨t1, e1⟩, ⟨t2, e2⟩, ⟨t3, e3⟩, d1, p1⟩ := h1
  obtain ⟨⟨u1, f1⟩, ⟨u2, f2⟩, ⟨u3, f3⟩, d2, p2⟩ := h2
  exact ⟨⟨t1 ++ u1, by simp [f1, e1]⟩, ⟨t2 ++ u2, by simp [f2, e2]⟩,
    ⟨t3 ++ u3, by simp [f3, e3]⟩, fun x hx => d2 x (d1 x hx), le_trans p1 p2⟩

/-! Field computations for the combined query-then-handle step. -/

theorem okStep_queries (src : StatusSource) (round : Nat) (st : WState) (id : BuildId) :
    (okState (queryState st round id) id (src round id).status).queries =
      st.queries ++ [(round, id)] := by
  rw [okState_queries]; rfl

theorem okStep_done (src : StatusSource) (round : Nat) (st : WState) (id : BuildId) :
    (okState (queryState st round id) id (src round id).status).done =
      if terminalStatuses.contains (src round id).status && !st.done.contains id
      then st.done ++ [id] else st.done := by
  rw [okState_done]; rfl

theorem okStep_failed (src : StatusSource) (round : Nat) (st : WState) (id : BuildId) :
    (okState (queryState st round id) id (src round id).status).failed_ids =
      st.failed_ids ++
        (if (src round id).status == "failed" then [id] else []) := by
  rw [okState_failed]; rfl

theorem okStep_notes (src : StatusSource) (round : Nat) (st : WState) (id : BuildId) :
    (okState (queryState st round id) id (src round id).status).notes =
      st.notes ++
        (if ledgerGet st.prevstatus id ≠ some (src round id).status
         then [(id, (src round id).status)] else []) := by
  rw [okState_notes]; rfl

theorem okStep_prev_self (src : StatusSource) (round : Nat) (st : WState) (id : BuildId) :
    ledgerGet (okState (queryState st round id) id (src round id).status).prevstatus id =
      some (src round id).status :=
  okState_prev_self _ _ _

theorem okStep_prev_ne (src : StatusSource) (round : Nat) (st : WState)
    (id j : BuildId) (h : j ≠ id) :
    ledgerGet (okState (queryState st round id) id (src round id).status).prevstatus j =
      ledgerGet st.prevstatus j :=
  okState_prev_ne _ _ _ _ h

theorem okStep_points (src : StatusSource) (round : Nat) (st : WState) (id : BuildId) :
    (okState (queryState st round id) id (src round id).status).points =
      st.points + 1 := by
  rw [okState_points]; rfl

/-! Observation traces under one more query. -/

theorem obsOf_okStep_self (src : StatusSource) (round : Nat) (st : WState) (id : BuildId)
    (hok : (src round id).output = "ok") :
    obsOf src (okState (queryState st round id) id (src round id).status) id =
      obsOf src st id ++ [(src round id).status] := by
  simp [obsOf, okStep_queries, List.filter_append, okQuery, hok]

theorem obsOf_okStep_ne (src : StatusSource) (round : Nat) (st : WState)
    (id j : BuildId) (h : j ≠ id) :
    obsOf src (okState (queryState st round id) id (src round id).status) j =
      obsOf src st j := by
  have : (id == j) = false := by simp [beq_iff_eq]; exact fun e => h e.symm
  simp [obsOf, okStep_queries, List.filter_append, this]

theorem obsOf_badStep (src : StatusSource) (round : Nat) (st : WState)
    (id j : BuildId) (hbad : (src round id).output ≠ "ok") :
    obsOf src (queryState st round id) j = obsOf src st j := by
  simp [obsOf, queryState, List.filter_append, okQuery, hbad]

theorem notesOf_okStep_self (src : StatusSource) (round : Nat) (st : WState) (id : BuildId) :
    notesOf (okState (queryState st round id) id (src round id).status) id =
      notesOf st id ++
        (if ledgerGet st.prevstatus id ≠ some (src round id).status
         then [(src round id).status] else []) := by
  rw [notesOf, okStep_notes]
  split_ifs with h <;> simp [notesOf, List.filter_append]

theorem notesOf_okStep_ne (src : StatusSource) (round : Nat) (st : WState)
    (id j : BuildId) (h : j ≠ id) :
    notesOf (okState (queryState st round id) id (src round id).status) j =
      notesOf st j := by
  have hb : (id == j) = false := by simp [beq_iff_eq]; exact fun e => h e.symm
  rw [notesOf, okStep_notes]
  split_ifs with h1 <;> simp [notesOf, List.filter_append, hb]

theorem prevOf_none (l : List String) : prevOf none l = l.getLast? := by
  unfold prevOf
  cases l.getLast? <;> rfl

/-! ### The run invariant -/

theorem inv_init (src : StatusSource) (watched : List BuildId) :
    WInv src watched initState := by
  refine ⟨?_, ?_, ?_, ?_, ?_, ?_, ?_, ?_⟩ <;>
    simp [initState, notesOf, obsOf, ledgerGet, dedupConsec]

theorem inv_setPS (src : StatusSource) (watched : List BuildId) (st : WState)
    (a b : Nat) (hInv : WInv src watched st) :
    WInv src watched { st with sleeps := a, points := b } :=
  ⟨hInv.doneSub, hInv.doneNodup, hInv.qIds, hInv.doneChar, hInv.noRequery,
   hInv.failedChar, hInv.ledgerChar, hInv.notesChar⟩

theorem inv_setPoints (src : StatusSource) (watched : List BuildId) (st : WState)
    (b : Nat) (hInv : WInv src watched st) :
    WInv src watched { st with points := b } :=
  ⟨hInv.doneSub, hInv.doneNodup, hInv.qIds, hInv.doneChar, hInv.noRequery,
   hInv.failedChar, hInv.ledgerChar, hInv.notesChar⟩

theorem inv_okStep (src : StatusSource) (watched : List BuildId) (round : Nat)
    (st : WState) (id : BuildId)
    (hInv : WInv src watched st) (hid : id ∈ watched) (hnd : id ∉ st.done)
    (hok : (src round id).output = "ok") :
    WInv src watched (okState (queryState st round id) id (src round id).status) := by
  have hc : st.done.contains id = false := by
    cases h : st.done.contains id with
    | false => rfl
    | true => exact absurd ((contains_iff_mem _ _).mp h) hnd
  have hQok : okQuery src (round, id) = true := by simp [okQuery, hok]
  have hdone : (okState (queryState st round id) id (src round id).status).done =
      if terminalStatuses.contains (src round id).status = true
      then st.done ++ [id] else st.done := by
    rw [okStep_done src round st id, hc]
    by_cases ht : terminalStatuses.contains (src round id).status = true <;> simp [ht]
  refine ⟨?_, ?_, ?_, ?_, ?_, ?_, ?_, ?_⟩
  · intro x hx
    rw [hdone] at hx
    split_ifs at hx with ht
    · rcases List.mem_append.mp hx with h' | h'
      · exact hInv.doneSub x h'
      · rw [List.mem_singleton.mp h']; exact hid
    · exact hInv.doneSub x hx
  · rw [hdone]
    split_ifs with ht
    · simp [List.nodup_append, hInv.doneNodup, hnd]
    · exact hInv.doneNodup
  · intro q hq
    rw [okStep_queries] at hq
    rcases List.mem_append.mp hq with h' | h'
    · exact hInv.qIds q h'
    · rw [List.mem_singleton.mp h']; exact hid
  · intro j
    constructor
    · intro hj
      rw [hdone] at hj
      split_ifs at hj with ht
      · rcases List.mem_append.mp hj with h' | h'
        · obtain ⟨q', hq', e, hterm⟩ := (hInv.doneChar j).mp h'
          exact ⟨q', by rw [okStep_queries]; exact List.mem_append_left _ hq', e, hterm⟩
        · refine ⟨(round, id), ?_, ?_, ?_⟩
          · rw [okStep_queries]; exact List.mem_append_right _ (by simp)
          · simp [List.mem_singleton.mp h']
          · simp only [okTerminalQuery, hQok, Bool.true_and]
            exact ht
      · obtain ⟨q', hq', e, hterm⟩ := (hInv.doneChar j).mp hj
        exact ⟨q', by rw [okStep_queries]; exact List.mem_append_left _ hq', e, hterm⟩
    · rintro ⟨q', hq', e, hterm⟩
      rw [okStep_queries] at hq'
      rcases List.mem_append.mp hq' with h' | h'
      · have hjd : j ∈ st.done := (hInv.doneChar j).mpr ⟨q', h', e, hterm⟩
        rw [hdone]
        split_ifs with ht
        · exact List.mem_append_left _ hjd
        · exact hjd
      · have hq'' : q' = (round, id) := List.mem_singleton.mp h'
        have hji : j = id := by rw [← e, hq'']
        have ht : terminalStatuses.contains (src round id).status = true := by
          rw [hq''] at hterm
          simpa [okTerminalQuery, hQok] using hterm
        rw [hdone, if_pos ht, hji]
        exact List.mem_append_right _ (by simp)
  · rw [okStep_queries, List.pairwise_append]
    refine ⟨hInv.noRequery, by simp, ?_⟩
    intro a ha b hb e
    cases hterm : okTerminalQuery src a with
    | false => rfl
    | true =>
      have hb' : b = (round, id) := List.mem_singleton.mp hb
      have : id ∈ st.done :=
        (hInv.doneChar id).mpr ⟨a, ha, by rw [e, hb'], hterm⟩
      exact absurd this hnd
  · rw [okStep_failed, okStep_queries, List.filter_append, List.map_append,
      hInv.failedChar]
    congr 1
    by_cases hf : (src round id).status = "failed" <;>
      simp [okFailedQuery, hQok, hf]
  · intro j
    by_cases hj : j = id
    · subst hj
      rw [okStep_prev_self, obsOf_okStep_self _ _ _ _ hok, List.getLast?_concat]
    · rw [okStep_prev_ne _ _ _ _ _ hj, obsOf_okStep_ne _ _ _ _ _ hj,
        hInv.ledgerChar]
  · intro j
    by_cases hj : j = id
    · subst hj
      rw [notesOf_okStep_self, obsOf_okStep_self _ _ _ _ hok, dedupConsec_concat,
        prevOf_none, ← hInv.ledgerChar j, hInv.notesChar j]
      by_cases h : ledgerGet st.prevstatus j = some (src round j).status <;> simp [h]
    · rw [notesOf_okStep_ne _ _ _ _ _ hj, obsOf_okStep_ne _ _ _ _ _ hj,
        hInv.notesChar]

theorem not_mem_of_contains_false {l : List BuildId} {x : BuildId}
    (h : l.contains x = false) : x ∉ l := by
  intro hm
  rw [(contains_iff_mem _ _).mpr hm] at h
  cases h

theorem inv_badStep (src : StatusSource) (watched : List BuildId) (round : Nat)
    (st : WState) (id : BuildId)
    (hInv : WInv src watched st) (hid : id ∈ watched) (hnd : id ∉ st.done)
    (hbad : (src round id).output ≠ "ok") :
    WInv src watched (queryState st round id) := by
  have hQbad : okQuery src (round, id) = false := by simp [okQuery, hbad]
  have hqs : (queryState st round id).queries = st.queries ++ [(round, id)] := rfl
  refine ⟨hInv.doneSub, hInv.doneNodup, ?_, ?_, ?_, ?_, ?_, ?_⟩
  · intro q hq
    rw [hqs] at hq
    rcases List.mem_append.mp hq with h' | h'
    · exact hInv.qIds q h'
    · rw [List.mem_singleton.mp h']; exact hid
  · intro j
    constructor
    · intro hj
      obtain ⟨q', hq', e, hterm⟩ := (hInv.doneChar j).mp hj
      exact ⟨q', by rw [hqs]; exact List.mem_append_left _ hq', e, hterm⟩
    · rintro ⟨q', hq', e, hterm⟩
      rw [hqs] at hq'
      rcases List.mem_append.mp hq' with h' | h'
      · exact (hInv.doneChar j).mpr ⟨q', h', e, hterm⟩
      · rw [List.mem_singleton.mp h'] at hterm
        simp [okTerminalQuery, hQbad] at hterm
  · rw [hqs, List.pairwise_append]
    refine ⟨hInv.noRequery, by simp, ?_⟩
    intro a ha b hb e
    cases hterm : okTerminalQuery src a with
    | false => rfl
    | true =>
      have hb' : b = (round, id) := List.mem_singleton.mp hb
      have : id ∈ st.done :=
        (hInv.doneChar id).mpr ⟨a, ha, by rw [e, hb'], hterm⟩
      exact absurd this hnd
  · rw [hqs, List.filter_append]
    have : List.filter (okFailedQuery src) [(round, id)] = [] := by
      simp [okFailedQuery, hQbad]
    rw [this, List.append_nil]
    exact hInv.failedChar
  · intro j
    rw [obsOf_badStep src round st id j hbad]
    exact hInv.ledgerChar j
  · intro j
    rw [obsOf_badStep src round st id j hbad]
    exact hInv.notesChar j

theorem inv_processId (src : StatusSource) (watched : List BuildId) (ia : Option Nat)
    (round : Nat) (st : WState) (id : BuildId)
    (hInv : WInv src watched st) (hid : id ∈ watched) :
    WInv src watched (exitState (processId src ia round st id)) := by
  rcases processId_split src ia round st id with
    h | ⟨h, h2⟩ | ⟨h, h2, h3⟩ | ⟨h, h2, h3, h4⟩ | ⟨h, h2, h3, h4⟩
  · rw [processId_skip src ia round st id h]; exact hInv
  · rw [processId_interrupt src ia round st id h h2]
    exact inv_setPoints src watched st _ hInv
  · rw [processId_badOutput src ia round st id h h2 h3]
    exact inv_badStep src watched round st id hInv hid (not_mem_of_contains_false h) h3
  · rw [processId_unknown src ia round st id h h2 h3 h4]
    exact inv_okStep src watched round st id hInv hid (not_mem_of_contains_false h) h3
  · rw [processId_ok src ia round st id h h2 h3 h4]
    exact inv_okStep src watched round st id hInv hid (not_mem_of_contains_false h) h3

theorem evolves_queryState (st : WState) (round : Nat) (id : BuildId) :
    Evolves st (queryState st round id) :=
  ⟨⟨[(round, id)], rfl⟩, ⟨[], by simp [queryState]⟩, ⟨[], by simp [queryState]⟩,
    fun _ hx => hx, Nat.le_succ _⟩

theorem evolves_okState (st1 : WState) (id : BuildId) (s : String) :
    Evolves st1 (okState st1 id s) := by
  refine ⟨⟨[], by simp [okState_queries]⟩, ⟨_, okState_failed st1 id s⟩,
    ⟨_, okState_notes st1 id s⟩, ?_, by simp [okState_points]⟩
  intro x hx
  rw [okState_done]
  split_ifs <;> simp [hx]

theorem evolves_processId (src : StatusSource) (ia : Option Nat) (round : Nat)
    (st : WState) (id : BuildId) :
    Evolves st (exitState (processId src ia round st id)) := by
  rcases processId_split src ia round st id with
    h | ⟨h, h2⟩ | ⟨h, h2, h3⟩ | ⟨h, h2, h3, h4⟩ | ⟨h, h2, h3, h4⟩
  · rw [processId_skip src ia round st id h]; exact Evolves.refl st
  · rw [processId_interrupt src ia round st id h h2]
    simp only [exitState]
    exact ⟨⟨[], by simp⟩, ⟨[], by simp⟩, ⟨[], by simp⟩, fun _ hx => hx, Nat.le_succ _⟩
  · rw [processId_badOutput src ia round st id h h2 h3]
    exact evolves_queryState st round id
  · rw [processId_unknown src ia round st id h h2 h3 h4]
    exact Evolves.trans (evolves_queryState st round id) (evolves_okState _ _ _)
  · rw [processId_ok src ia round st id h h2 h3 h4]
    exact Evolves.trans (evolves_queryState st round id) (evolves_okState _ _ _)

theorem clean_processId_inr (src : StatusSource) (ia : Option Nat) (round : Nat)
    (st : WState) (id : BuildId) (st' : WState)
    (hClean : CleanQ src st.queries)
    (h : processId src ia round st id = Sum.inr st') :
    CleanQ src st'.queries := by
  rcases processId_split src ia round st id with
    hc | ⟨hc, h2⟩ | ⟨hc, h2, h3⟩ | ⟨hc, h2, h3, h4⟩ | ⟨hc, h2, h3, h4⟩
  · rw [processId_skip src ia round st id hc] at h
    injection h with h'
    rw [← h']; exact hClean
  · rw [processId_interrupt src ia round st id hc h2] at h; cases h
  · rw [processId_badOutput src ia round st id hc h2 h3] at h; cases h
  · rw [processId_unknown src ia round st id hc h2 h3 h4] at h; cases h
  · rw [processId_ok src ia round st id hc h2 h3 h4] at h
    injection h with h'
    rw [← h', okStep_queries]
    intro q hq
    rcases List.mem_append.mp hq with h' | h'
    · exact hClean q h'
    · rw [List.mem_singleton.mp h']
      simp [goodQuery, okQuery, h3, h4]

theorem processId_abort_shape (src : StatusSource) (ia : Option Nat) (round : Nat)
    (st : WState) (id : BuildId) (o : Outcome) (st' : WState)
    (hClean : CleanQ src st.queries)
    (h : processId src ia round st id = Sum.inl (o, st')) :
    AbortShape src o st' := by
  rcases processId_split src ia round st id with
    hc | ⟨hc, h2⟩ | ⟨hc, h2, h3⟩ | ⟨hc, h2, h3, h4⟩ | ⟨hc, h2, h3, h4⟩
  · rw [processId_skip src ia round st id hc] at h; cases h
  · rw [processId_interrupt src ia round st id hc h2] at h
    injection h with h'
    rw [Prod.mk.injEq] at h'
    obtain ⟨ho, hst⟩ := h'
    subst ho; subst hst
    exact Or.inl ⟨rfl, hClean⟩
  · rw [processId_badOutput src ia round st id hc h2 h3] at h
    injection h with h'
    rw [Prod.mk.injEq] at h'
    obtain ⟨ho, hst⟩ := h'
    subst ho; subst hst
    refine Or.inr ⟨st.queries, (round, id), rfl, hClean, Or.inl ⟨?_, rfl⟩⟩
    simp [okQuery, h3]
  · rw [processId_unknown src ia round st id hc h2 h3 h4] at h
    injection h with h'
    rw [Prod.mk.injEq] at h'
    obtain ⟨ho, hst⟩ := h'
    subst ho; subst hst
    refine Or.inr ⟨st.queries, (round, id), ?_, hClean, Or.inr ⟨?_, h4, rfl⟩⟩
    · exact okStep_queries src round st id
    · simp [okQuery, h3]
  · rw [processId_ok src ia round st id hc h2 h3 h4] at h; cases h

theorem processRound_inv_evolves (src : StatusSource) (watched : List BuildId)
    (ia : Option Nat) (round : Nat) :
    ∀ l st, (∀ x ∈ l, x ∈ watched) → WInv src watched st →
      WInv src watched (exitState (processRound src ia round st l)) ∧
      Evolves st (exitState (processRound src ia round st l)) := by
  intro l
  induction l with
  | nil => intro st _ hInv; exact ⟨hInv, Evolves.refl st⟩
  | cons id rest ih =>
    intro st hl hInv
    have hid : id ∈ watched := hl id (by simp)
    cases hpid : processId src ia round st id with
    | inl r =>
      have heq : processRound src ia round st (id :: rest) = Sum.inl r := by
        simp [processRound, hpid]
      rw [heq]
      have h1 := inv_processId src watched ia round st id hInv hid
      have h2 := evolves_processId src ia round st id
      rw [hpid] at h1 h2
      exact ⟨h1, h2⟩
    | inr st1 =>
      have heq : processRound src ia round st (id :: rest) =
          processRound src ia round st1 rest := by
        simp [processRound, hpid]
      rw [heq]
      have h1 := inv_processId src watched ia round st id hInv hid
      have h2 := evolves_processId src ia round st id
      rw [hpid] at h1 h2
      simp only [exitState] at h1 h2
      obtain ⟨ha, hb⟩ := ih st1 (fun x hx => hl x (by simp [hx])) h1
      exact ⟨ha, Evolves.trans h2 hb⟩

theorem processRound_clean_inr (src : StatusSource) (ia : Option Nat) (round : Nat) :
    ∀ l st st', CleanQ src st.queries →
      processRound src ia round st l = Sum.inr st' → CleanQ src st'.queries := by
  intro l
  induction l with
  | nil =>
    intro st st' hClean h
    injection h with h'
    rw [← h']; exact hClean
  | cons id rest ih =>
    intro st st' hClean h
    cases hpid : processId src ia round st id with
    | inl r => simp [processRound, hpid] at h
    | inr st1 =>
      have heq : processRound src ia round st (id :: rest) =
          processRound src ia round st1 rest := by
        simp [processRound, hpid]
      rw [heq] at h
      exact ih st1 st' (clean_processId_inr src ia round st id st1 hClean hpid) h

theorem processRound_abort_shape (src : StatusSource) (ia : Option Nat) (round : Nat) :
    ∀ l st o st', CleanQ src st.queries →
      processRound src ia round st l = Sum.inl (o, st') → AbortShape src o st' := by
  intro l
  induction l with
  | nil => intro st o st' _ h; cases h
  | cons id rest ih =>
    intro st o st' hClean h
    cases hpid : processId src ia round st id with
    | inl r =>
      have heq : processRound src ia round st (id :: rest) = Sum.inl r := by
        simp [processRound, hpid]
      rw [heq] at h
      injection h with h'
      rw [h'] at hpid
      exact processId_abort_shape src ia round st id o st' hClean hpid
    | inr st1 =>
      have heq : processRound src ia round st (id :: rest) =
          processRound src ia round st1 rest := by
        simp [processRound, hpid]
      rw [heq] at h
      exact ih st1 o st' (clean_processId_inr src ia round st id st1 hClean hpid) h

theorem loopExit_of_abort (src : StatusSource) (watched : List BuildId)
    (o : Outcome) (st : WState) (h : AbortShape src o st) :
    LoopExit src watched o st := by
  rcases h with ⟨ho, hc⟩ | h
  · exact Or.inl ⟨hc, Or.inr (Or.inr (Or.inl ho))⟩
  · exact Or.inr h

theorem finishResult_fst (st : WState) :
    (finishResult st).1 =
      if st.failed_ids.isEmpty then Outcome.success
      else Outcome.buildError (partialMsg st.failed_ids) := by
  unfold finishResult; split_ifs <;> rfl

theorem finishResult_snd (st : WState) : (finishResult st).2 = st := by
  unfold finishResult; split_ifs <;> rfl

theorem loopExit_finish (src : StatusSource) (watched : List BuildId) (st : WState)
    (hClean : CleanQ src st.queries) (heq : eqAsSets watched st.done = true) :
    LoopExit src watched (finishResult st).1 (finishResult st).2 := by
  rw [finishResult_fst, finishResult_snd]
  by_cases hf : st.failed_ids.isEmpty = true
  · rw [if_pos hf]
    exact Or.inl ⟨hClean, Or.inl ⟨rfl, List.isEmpty_iff.mp hf, heq⟩⟩
  · rw [if_neg hf]
    refine Or.inl ⟨hClean, Or.inr (Or.inl ⟨rfl, ?_, heq⟩)⟩
    intro h0
    exact hf (by simp [h0])

theorem watchLoop_zero (src : StatusSource) (ia : Option Nat) (watched : List BuildId)
    (round : Nat) (st : WState) :
    watchLoop src ia watched 0 round st =
      if eqAsSets watched st.done then finishResult st
      else (Outcome.outOfFuel, st) := rfl

theorem watchLoop_succ (src : StatusSource) (ia : Option Nat) (watched : List BuildId)
    (fuel round : Nat) (st : WState) :
    watchLoop src ia watched (fuel + 1) round st =
      if eqAsSets watched st.done then finishResult st
      else
        match processRound src ia round st watched with
        | Sum.inl r => r
        | Sum.inr st' =>
          if eqAsSets watched st'.done then finishResult st'
          else if ia = some st'.points then
            (Outcome.interrupted, { st' with points := st'.points + 1 })
          else
            watchLoop src ia watched fuel (round + 1)
              { st' with sleeps := st'.sleeps + 1, points := st'.points + 1 } := rfl

theorem evolves_bumpPS (st : WState) (a b : Nat) (ha : st.points ≤ b) :
    Evolves st { st with sleeps := a, points := b } :=
  ⟨⟨[], by simp⟩, ⟨[], by simp⟩, ⟨[], by simp⟩, fun _ hx => hx, ha⟩

theorem watchLoop_main (src : StatusSource) (watched : List BuildId) (ia : Option Nat) :
    ∀ fuel round st, WInv src watched st → CleanQ src st.queries →
      WInv src watched (watchLoop src ia watched fuel round st).2 ∧
      Evolves st (watchLoop src ia watched fuel round st).2 ∧
      LoopExit src watched (watchLoop src ia watched fuel round st).1
        (watchLoop src ia watched fuel round st).2 := by
  intro fuel
  induction fuel with
  | zero =>
    intro round st hInv hClean
    rw [watchLoop_zero]
    by_cases heq : eqAsSets watched st.done = true
    · rw [if_pos heq]
      refine ⟨?_, ?_, loopExit_finish src watched st hClean heq⟩
      · rw [finishResult_snd]; exact hInv
      · rw [finishResult_snd]; exact Evolves.refl st
    · rw [if_neg heq]
      exact ⟨hInv, Evolves.refl st, Or.inl ⟨hClean, Or.inr (Or.inr (Or.inr rfl))⟩⟩
  | succ fuel ih =>
    intro round st hInv hClean
    rw [watchLoop_succ]
    by_cases heq : eqAsSets watched st.done = true
    · rw [if_pos heq]
      refine ⟨?_, ?_, loopExit_finish src watched st hClean heq⟩
      · rw [finishResult_snd]; exact hInv
      · rw [finishResult_snd]; exact Evolves.refl st
    · rw [if_neg heq]
      have hpre := processRound_inv_evolves src watched ia round watched st
        (fun x hx => hx) hInv
      cases hpr : processRound src ia round st watched with
      | inl r =>
        rw [hpr] at hpre
        simp only [exitState] at hpre
        dsimp only
        have hab := processRound_abort_shape src ia round watched st r.1 r.2
          hClean (by rw [hpr])
        exact ⟨hpre.1, hpre.2, loopExit_of_abort src watched r.1 r.2 hab⟩
      | inr st1 =>
        rw [hpr] at hpre
        simp only [exitState] at hpre
        dsimp only
        have hC1 : CleanQ src st1.queries :=
          processRound_clean_inr src ia round watched st st1 hClean hpr
        by_cases heq2 : eqAsSets watched st1.done = true
        · rw [if_pos heq2]
          refine ⟨?_, ?_, loopExit_finish src watched st1 hC1 heq2⟩
          · rw [finishResult_snd]; exact hpre.1
          · rw [finishResult_snd]; exact hpre.2
        · rw [if_neg heq2]
          by_cases hia : ia = some st1.points
          · rw [if_pos hia]
            refine ⟨inv_setPoints src watched st1 _ hpre.1, ?_, ?_⟩
            · exact Evolves.trans hpre.2
                ⟨⟨[], by simp⟩, ⟨[], by simp⟩, ⟨[], by simp⟩,
                  fun _ hx => hx, Nat.le_succ _⟩
            · exact Or.inl ⟨hC1, Or.inr (Or.inr (Or.inl rfl))⟩
          · rw [if_neg hia]
            obtain ⟨a, b, c⟩ := ih (round + 1)
              { st1 with sleeps := st1.sleeps + 1, points := st1.points + 1 }
              (inv_setPS src watched st1 _ _ hpre.1) hC1
            exact ⟨a, Evolves.trans hpre.2
              (Evolves.trans (evolves_bumpPS st1 _ _ (Nat.le_succ _)) b), c⟩

theorem eqAsSets_true_iff (a b : List BuildId) :
    eqAsSets a b = true ↔ (∀ x ∈ a, x ∈ b) ∧ (∀ x ∈ b, x ∈ a) := by
  simp [eqAsSets, List.all_eq_true, contains_iff_mem]

theorem processId_noabort (src : StatusSource) (round : Nat) (st : WState) (id : BuildId)
    (hok : (src round id).output = "ok") (hunk : (src round id).status ≠ "unknown") :
    ∃ st', processId src none round st id = Sum.inr st' ∧
      (∀ x ∈ st.done, x ∈ st'.done) ∧
      (terminalStatuses.contains (src round id).status = true → id ∈ st'.done) := by
  by_cases hc : st.done.contains id = true
  · exact ⟨st, processId_skip src none round st id hc, fun _ hx => hx,
      fun _ => (contains_iff_mem _ _).mp hc⟩
  · have hc' : st.done.contains id = false := by
      cases h : st.done.contains id with
      | false => rfl
      | true => exact absurd h hc
    refine ⟨_, processId_ok src none round st id hc' (by simp) hok hunk, ?_, ?_⟩
    · intro x hx
      rw [okStep_done]
      split_ifs <;> simp [hx]
    · intro ht
      rw [okStep_done, hc', ht]
      simp

theorem processRound_noabort (src : StatusSource) (watched : List BuildId) (round : Nat)
    (hok : ∀ id ∈ watched, (src round id).output = "ok")
    (hunk : ∀ id ∈ watched, (src round id).status ≠ "unknown") :
    ∀ l st, (∀ x ∈ l, x ∈ watched) →
      ∃ st', processRound src none round st l = Sum.inr st' ∧
        (∀ x ∈ st.done, x ∈ st'.done) ∧
        (∀ id ∈ l, terminalStatuses.contains (src round id).status = true →
          id ∈ st'.done) := by
  intro l
  induction l with
  | nil => intro st _; exact ⟨st, rfl, fun _ hx => hx, by simp⟩
  | cons id rest ih =>
    intro st hl
    obtain ⟨st1, hpid, hmono1, hterm1⟩ :=
      processId_noabort src round st id (hok id (hl id (by simp)))
        (hunk id (hl id (by simp)))
    obtain ⟨st', hrest, hmono2, hterm2⟩ := ih st1 (fun x hx => hl x (by simp [hx]))
    refine ⟨st', ?_, fun x hx => hmono2 x (hmono1 x hx), ?_⟩
    · simp [processRound, hpid, hrest]
    · intro j hj ht
      rcases List.mem_cons.mp hj with h' | h'
      · subst h'; exact hmono2 j (hterm1 ht)
      · exact hterm2 j h' ht

theorem watchLoop_term (src : StatusSource) (watched : List BuildId) (N : Nat)
    (hok : ∀ r, ∀ id ∈ watched, (src r id).output = "ok")
    (hunk : ∀ r, ∀ id ∈ watched, (src r id).status ≠ "unknown")
    (hterm : ∀ r, N ≤ r → ∀ id ∈ watched,
      terminalStatuses.contains (src r id).status = true) :
    ∀ fuel round st, WInv src watched st → round ≤ N → N < round + fuel →
      ∃ st', watchLoop src none watched fuel round st = finishResult st' ∧
        eqAsSets watched st'.done = true := by
  intro fuel
  induction fuel with
  | zero => intro round st _ h1 h2; omega
  | succ fuel ih =>
    intro round st hInv h1 h2
    rw [watchLoop_succ]
    by_cases heq : eqAsSets watched st.done = true
    · rw [if_pos heq]; exact ⟨st, rfl, heq⟩
    · rw [if_neg heq]
      obtain ⟨st1, hpr, hmono, htermdone⟩ :=
        processRound_noabort src watched round (hok round) (hunk round)
          watched st (fun x hx => hx)
      have hInv1 : WInv src watched st1 := by
        have h := (processRound_inv_evolves src watched none round watched st
          (fun x hx => hx) hInv).1
        rw [hpr] at h
        exact h
      rw [hpr]
      dsimp only
      by_cases heq2 : eqAsSets watched st1.done = true
      · rw [if_pos heq2]; exact ⟨st1, rfl, heq2⟩
      · by_cases hr : N ≤ round
        · exact absurd ((eqAsSets_true_iff watched st1.done).mpr
            ⟨fun x hx => htermdone x hx (hterm round hr x hx), hInv1.doneSub⟩) heq2
        · rw [if_neg heq2]
          have hia : ¬ (none : Option Nat) = some st1.points := by simp
          rw [if_neg hia]
          exact ih (round + 1)
            { st1 with sleeps := st1.sleeps + 1, points := st1.points + 1 }
            (inv_setPS src watched st1 _ _ hInv1) (by omega) (by omega)

/-! ### Interruption: comparing a run with and without a cancellation point -/

theorem processRound_evolves (src : StatusSource) (ia : Option Nat) (round : Nat) :
    ∀ l st, Evolves st (exitState (processRound src ia round st l)) := by
  intro l
  induction l with
  | nil => intro st; exact Evolves.refl st
  | cons id rest ih =>
    intro st
    cases hpid : processId src ia round st id with
    | inl r =>
      have heq : processRound src ia round st (id :: rest) = Sum.inl r := by
        simp [processRound, hpid]
      rw [heq]
      have h2 := evolves_processId src ia round st id
      rw [hpid] at h2
      exact h2
    | inr st1 =>
      have heq : processRound src ia round st (id :: rest) =
          processRound src ia round st1 rest := by
        simp [processRound, hpid]
      rw [heq]
      have h2 := evolves_processId src ia round st id
      rw [hpid] at h2
      simp only [exitState] at h2
      exact Evolves.trans h2 (ih st1)

theorem watchLoop_evolves (src : StatusSource) (ia : Option Nat)
    (watched : List BuildId) :
    ∀ fuel round st, Evolves st (watchLoop src ia watched fuel round st).2 := by
  intro fuel
  induction fuel with
  | zero =>
    intro round st
    rw [watchLoop_zero]
    by_cases heq : eqAsSets watched st.done = true
    · rw [if_pos heq, finishResult_snd]; exact Evolves.refl st
    · rw [if_neg heq]; exact Evolves.refl st
  | succ fuel ih =>
    intro round st
    rw [watchLoop_succ]
    by_cases heq : eqAsSets watched st.done = true
    · rw [if_pos heq, finishResult_snd]; exact Evolves.refl st
    · rw [if_neg heq]
      cases hpr : processRound src ia round st watched with
      | inl r =>
        dsimp only
        have h2 := processRound_evolves src ia round watched st
        rw [hpr] at h2
        exact h2
      | inr st1 =>
        dsimp only
        have h2 := processRound_evolves src ia round watched st
        rw [hpr] at h2
        simp only [exitState] at h2
        by_cases heq2 : eqAsSets watched st1.done = true
        · rw [if_pos heq2, finishResult_snd]; exact h2
        · rw [if_neg heq2]
          by_cases hia : ia = some st1.points
          · rw [if_pos hia]
            exact Evolves.trans h2 (evolves_bumpPS st1 st1.sleeps _ (Nat.le_succ _))
          · rw [if_neg hia]
            exact Evolves.trans h2
              (Evolves.trans (evolves_bumpPS st1 _ _ (Nat.le_succ _)) (ih _ _))

theorem processId_agree (src : StatusSource) (round : Nat) (st : WState)
    (id : BuildId) (k : Nat) (hk : st.points ≤ k) :
    (k < ptsOf (processId src none round st id) →
      ∃ st', processId src (some k) round st id =
        Sum.inl (Outcome.interrupted, st')) ∧
    (ptsOf (processId src none round st id) ≤ k →
      processId src (some k) round st id = processId src none round st id) := by
  by_cases hc : st.done.contains id = true
  · rw [processId_skip src none round st id hc,
      processId_skip src (some k) round st id hc]
    constructor
    · intro h; simp [ptsOf, exitState] at h; omega
    · intro _; rfl
  · have hc' : st.done.contains id = false := by
      cases h : st.done.contains id with
      | false => rfl
      | true => exact absurd h hc
    have hpts : ptsOf (processId src none round st id) = st.points + 1 := by
      rcases processId_split src none round st id with
        h | ⟨h, h2⟩ | ⟨h, h2, h3⟩ | ⟨h, h2, h3, h4⟩ | ⟨h, h2, h3, h4⟩
      · rw [hc'] at h; cases h
      · cases h2
      · rw [processId_badOutput src none round st id h h2 h3]
        simp [ptsOf, exitState, queryState]
      · rw [processId_unknown src none round st id h h2 h3 h4]
        simp [ptsOf, exitState, okStep_points]
      · rw [processId_ok src none round st id h h2 h3 h4]
        simp [ptsOf, exitState, okStep_points]
    constructor
    · intro hlt
      rw [hpts] at hlt
      have hkp : k = st.points := by omega
      exact ⟨_, processId_interrupt src (some k) round st id hc' (by rw [hkp])⟩
    · intro hge
      rw [hpts] at hge
      have hne : (some k : Option Nat) ≠ some st.points := by
        intro h
        injection h with h'
        omega
      by_cases h3 : (src round id).output = "ok"
      · by_cases h4 : (src round id).status = "unknown"
        · rw [processId_unknown src (some k) round st id hc' hne h3 h4,
            processId_unknown src none round st id hc' (by simp) h3 h4]
        · rw [processId_ok src (some k) round st id hc' hne h3 h4,
            processId_ok src none round st id hc' (by simp) h3 h4]
      · rw [processId_badOutput src (some k) round st id hc' hne h3,
          processId_badOutput src none round st id hc' (by simp) h3]

theorem processRound_agree (src : StatusSource) (round : Nat) (k : Nat) :
    ∀ l st, st.points ≤ k →
      (k < ptsOf (processRound src none round st l) →
        ∃ st', processRound src (some k) round st l =
          Sum.inl (Outcome.interrupted, st')) ∧
      (ptsOf (processRound src none round st l) ≤ k →
        processRound src (some k) round st l = processRound src none round st l) := by
  intro l
  induction l with
  | nil =>
    intro st hk
    constructor
    · intro h; simp [processRound, ptsOf, exitState] at h; omega
    · intro _; rfl
  | cons id rest ih =>
    intro st hk
    obtain ⟨hint, hagr⟩ := processId_agree src round st id k hk
    cases hpid : processId src none round st id with
    | inl r =>
      have heqn : processRound src none round st (id :: rest) = Sum.inl r := by
        simp [processRound, hpid]
      constructor
      · intro hlt
        rw [heqn] at hlt
        obtain ⟨st', h'⟩ := hint (by rw [hpid]; exact hlt)
        exact ⟨st', by simp [processRound, h']⟩
      · intro hge
        rw [heqn] at hge
        have h' := hagr (by rw [hpid]; exact hge)
        rw [hpid] at h'
        rw [heqn]
        simp [processRound, h']
    | inr st1 =>
      have heqn : processRound src none round st (id :: rest) =
          processRound src none round st1 rest := by
        simp [processRound, hpid]
      have hmono : st1.points ≤ ptsOf (processRound src none round st1 rest) :=
        (processRound_evolves src none round rest st1).pointsExt
      by_cases hks : st1.points ≤ k
      · have hsome : processId src (some k) round st id = Sum.inr st1 := by
          have h' := hagr (by rw [hpid]; simpa [ptsOf, exitState] using hks)
          rw [hpid] at h'
          exact h'
        have heqs : processRound src (some k) round st (id :: rest) =
            processRound src (some k) round st1 rest := by
          simp [processRound, hsome]
        obtain ⟨ihint, ihagr⟩ := ih st1 hks
        constructor
        · intro hlt
          rw [heqn] at hlt
          obtain ⟨st', h'⟩ := ihint hlt
          exact ⟨st', by rw [heqs]; exact h'⟩
        · intro hge
          rw [heqn] at hge
          rw [heqs, heqn]
          exact ihagr hge
      · have hlt1 : k < ptsOf (processId src none round st id) := by
          rw [hpid]
          simp only [ptsOf, exitState]
          omega
        obtain ⟨st', h'⟩ := hint hlt1
        constructor
        · intro _
          exact ⟨st', by simp [processRound, h']⟩
        · intro hge
          rw [heqn] at hge
          omega

theorem watchLoop_agree (src : StatusSource) (watched : List BuildId) (k : Nat) :
    ∀ fuel round st, st.points ≤ k →
      (k < (watchLoop src none watched fuel round st).2.points →
        (watchLoop src (some k) watched fuel round st).1 = Outcome.interrupted) ∧
      ((watchLoop src none watched fuel round st).2.points ≤ k →
        watchLoop src (some k) watched fuel round st =
          watchLoop src none watched fuel round st) := by
  intro fuel
  induction fuel with
  | zero =>
    intro round st hk
    rw [watchLoop_zero, watchLoop_zero]
    by_cases heq : eqAsSets watched st.done = true
    · simp only [if_pos heq]
      constructor
      · intro h; rw [finishResult_snd] at h; omega
      · intro _; trivial
    · simp only [if_neg heq]
      constructor
      · intro h; omega
      · intro _; trivial
  | succ fuel ih =>
    intro round st hk
    rw [watchLoop_succ, watchLoop_succ]
    by_cases heq : eqAsSets watched st.done = true
    · simp only [if_pos heq]
      constructor
      · intro h; rw [finishResult_snd] at h; omega
      · intro _; trivial
    · simp only [if_neg heq]
      obtain ⟨hint, hagr⟩ := processRound_agree src round k watched st hk
      cases hpr : processRound src none round st watched with
      | inl r =>
        dsimp only
        constructor
        · intro hlt
          obtain ⟨st', h'⟩ := hint (by rw [hpr]; simpa [ptsOf, exitState] using hlt)
          rw [h']
        · intro hge
          have h' := hagr (by rw [hpr]; simpa [ptsOf, exitState] using hge)
          rw [h', hpr]
      | inr st1 =>
        dsimp only
        by_cases hks : st1.points ≤ k
        · have hsome : processRound src (some k) round st watched = Sum.inr st1 := by
            have h' := hagr (by rw [hpr]; simpa [ptsOf, exitState] using hks)
            rw [hpr] at h'
            exact h'
          rw [hsome]
          dsimp only
          by_cases heq2 : eqAsSets watched st1.done = true
          · simp only [if_pos heq2]
            constructor
            · intro h; rw [finishResult_snd] at h; omega
            · intro _; trivial
          · simp only [if_neg heq2]
            have hiaN : ¬ (none : Option Nat) = some st1.points := by simp
            rw [if_neg hiaN]
            by_cases hkp : k = st1.points
            · have hiaS : (some k : Option Nat) = some st1.points := by rw [hkp]
              rw [if_pos hiaS]
              constructor
              · intro _; rfl
              · intro hge
                have hev := watchLoop_evolves src none watched fuel (round + 1)
                  { st1 with sleeps := st1.sleeps + 1, points := st1.points + 1 }
                have h2 : st1.points + 1 ≤
                    (watchLoop src none watched fuel (round + 1)
                      { st1 with sleeps := st1.sleeps + 1,
                                 points := st1.points + 1 }).2.points :=
                  hev.pointsExt
                omega
            · have hiaS : ¬ (some k : Option Nat) = some st1.points := by
                intro h
                injection h with h'
                exact hkp h'
              rw [if_neg hiaS]
              have hk' : ({ st1 with sleeps := st1.sleeps + 1,
                                     points := st1.points + 1 } : WState).points ≤ k := by
                show st1.points + 1 ≤ k
                omega
              exact ih (round + 1) _ hk'
        · have hlt1 : k < ptsOf (processRound src none round st watched) := by
            rw [hpr]
            simp only [ptsOf, exitState]
            omega
          obtain ⟨st', h'⟩ := hint hlt1
          rw [h']
          dsimp only
          constructor
          · intro _; rfl
          · intro hge
            exfalso
            by_cases heq2 : eqAsSets watched st1.done = true
            · rw [if_pos heq2, finishResult_snd] at hge; omega
            · simp only [if_neg heq2] at hge
              have hiaN : ¬ (none : Option Nat) = some st1.points := by simp
              rw [if_neg hiaN] at hge
              have hev := watchLoop_evolves src none watched fuel (round + 1)
                { st1 with sleeps := st1.sleeps + 1, points := st1.points + 1 }
              have h2 : st1.points + 1 ≤
                  (watchLoop src none watched fuel (round + 1)
                    { st1 with sleeps := st1.sleeps + 1,
                               points := st1.points + 1 }).2.points :=
                hev.pointsExt
              omega

/-! ### Putting the run together -/

theorem watch_main (src : StatusSource) (ia : Option Nat) (fuel : Nat)
    (build_ids : List BuildId) :
    WInv src build_ids.dedup (watch src ia fuel build_ids).2 ∧
    LoopExit src build_ids.dedup (watch src ia fuel build_ids).1
      (watch src ia fuel build_ids).2 := by
  have h := watchLoop_main src build_ids.dedup ia fuel 0 initState
    (inv_init _ _) (fun q hq => absurd hq (List.not_mem_nil q))
  exact ⟨h.1, h.2.2⟩

theorem okTerminal_of_okFailed (src : StatusSource) (q : Nat × BuildId)
    (h : okFailedQuery src q = true) : okTerminalQuery src q = true := by
  simp only [okFailedQuery, Bool.and_eq_true, beq_iff_eq] at h
  simp [okTerminalQuery, okQuery, h.1, h.2, terminalStatuses]
  rw [show (src q.1 q.2).output = "ok" from by
    simpa [okQuery] using h.1]

theorem failed_nodup_of_inv {src : StatusSource} {w : List BuildId} {st : WState}
    (hInv : WInv src w st) : st.failed_ids.Nodup := by
  rw [hInv.failedChar, List.Nodup, List.pairwise_map]
  have h := (hInv.noRequery).filter (okFailedQuery src)
  refine h.imp_of_mem ?_
  intro a b ha _ hr he
  have ha' : okFailedQuery src a = true := List.of_mem_filter ha
  have := hr he
  rw [okTerminal_of_okFailed src a ha'] at this
  cases this

theorem Mentions.append_left {s t : String} (u : String) (h : Mentions s t) :
    Mentions (u ++ s) t := by
  obtain ⟨a, b, e⟩ := h
  exact ⟨u.data ++ a, b, by rw [String.data_append, e]; simp⟩

theorem Mentions.append_right {s t : String} (u : String) (h : Mentions s t) :
    Mentions (s ++ u) t := by
  obtain ⟨a, b, e⟩ := h
  exact ⟨a, b ++ u.data, by rw [String.data_append, e]; simp⟩

theorem mentions_refl (t : String) : Mentions t t := ⟨[], [], by simp⟩

theorem joinIds_mentions (l : List BuildId) (id : BuildId) (h : id ∈ l) :
    Mentions (joinIds l) (toString id) := by
  induction l with
  | nil => cases h
  | cons x rest ih =>
    cases rest with
    | nil =>
      rw [List.mem_singleton] at h
      subst h
      exact mentions_refl _
    | cons y t =>
      rcases List.mem_cons.mp h with h' | h'
      · subst h'
        show Mentions (toString id ++ ", " ++ joinIds (y :: t)) (toString id)
        exact Mentions.append_right _ (Mentions.append_right _ (mentions_refl _))
      · have hm := ih h'
        show Mentions (toString x ++ ", " ++ joinIds (y :: t)) (toString id)
        exact Mentions.append_left _ hm

/-! ### The claims -/

/-- C10: for the empty input sequence of build identifiers, `watch` returns a
success outcome immediately: zero status queries, zero notifications, zero
sleeps, and no error is raised. -/
theorem C10_empty_watch (src : StatusSource) (ia : Option Nat) (fuel : Nat) :
    (watch src ia fuel []).1 = Outcome.success ∧
    (watch src ia fuel []).2.queries = [] ∧
    (watch src ia fuel []).2.notes = [] ∧
    (watch src ia fuel []).2.sleeps = 0 ∧
    Outcome.isError (watch src ia fuel []).1 = false := by
  have h : watch src ia fuel [] = (Outcome.success, initState) := by
    unfold watch
    cases fuel with
    | zero => rfl
    | succ f => rfl
  rw [h]
  exact ⟨rfl, rfl, rfl, rfl, rfl⟩

/-- C6: `watch` behaves identically on a sequence and on the sequence with
duplicates removed — same queries, notifications and outcome — and in
particular watching `[5, 5, 7]` equals watching `[5, 7]`: only membership in
the Watch Set matters. -/
theorem C6_duplicates_idempotent (src : StatusSource) (ia : Option Nat) (fuel : Nat)
    (build_ids : List BuildId) :
    watch src ia fuel build_ids = watch src ia fuel build_ids.dedup ∧
    watch src ia fuel [5, 5, 7] = watch src ia fuel [5, 7] := by
  constructor
  · unfold watch
    rw [List.dedup_idem]
  · unfold watch
    have h : ([5, 5, 7] : List BuildId).dedup = ([5, 7] : List BuildId).dedup := by
      decide
    rw [h]

/-- C7: throughout every watch, the Done Set stays inside the Watch Set, an
identifier is done exactly when one of its queries returned a terminal
status, no identifier is queried again after such a query (no re-query after
joining the Done Set), and the Done Set only ever grows during the loop. -/
theorem C7_done_set_invariants (src : StatusSource) (ia : Option Nat) (fuel : Nat)
    (build_ids : List BuildId) :
    (∀ x ∈ (watch src ia fuel build_ids).2.done, x ∈ build_ids) ∧
    (∀ id, id ∈ (watch src ia fuel build_ids).2.done ↔
      ∃ q ∈ (watch src ia fuel build_ids).2.queries, q.2 = id ∧
        okTerminalQuery src q = true) ∧
    (watch src ia fuel build_ids).2.queries.Pairwise
      (fun a b => a.2 = b.2 → okTerminalQuery src a = false) ∧
    (∀ fuel' round st0, ∀ x ∈ st0.done,
      x ∈ (watchLoop src ia build_ids.dedup fuel' round st0).2.done) := by
  obtain ⟨hInv, _⟩ := watch_main src ia fuel build_ids
  refine ⟨?_, hInv.doneChar, hInv.noRequery, ?_⟩
  · intro x hx
    exact List.dedup_subset _ (hInv.doneSub x hx)
  · intro fuel' round st0
    exact (watchLoop_evolves src ia build_ids.dedup fuel' round st0).doneExt

/-- C8: a status-transition notification is emitted exactly when a newly
observed status differs from the one in the Progress Ledger, the ledger ends
holding the last observed status, and the notifications for one identifier
are exactly the distinct consecutive statuses observed for it — never
more. -/
theorem C8_notification_ledger (src : StatusSource) (ia : Option Nat) (fuel : Nat)
    (build_ids : List BuildId) :
    (∀ id, notesOf (watch src ia fuel build_ids).2 id =
      dedupConsec none (obsOf src (watch src ia fuel build_ids).2 id)) ∧
    (∀ id, ledgerGet (watch src ia fuel build_ids).2.prevstatus id =
      (obsOf src (watch src ia fuel build_ids).2 id).getLast?) ∧
    (∀ id, (notesOf (watch src ia fuel build_ids).2 id).length =
      (dedupConsec none (obsOf src (watch src ia fuel build_ids).2 id)).length) := by
  obtain ⟨hInv, _⟩ := watch_main src ia fuel build_ids
  exact ⟨hInv.notesChar, hInv.ledgerChar, fun id => by rw [hInv.notesChar id]⟩

/-- C3 counterexample: the exception raised on an `"unknown"` status is the
constant `CoprBuildException("Unknown status.")`; watching build 1 and
watching build 2 raise literally the same error, so the error cannot carry
the offending identifier, contrary to the claim. -/
theorem C3_counterexample :
    (watch srcUnknown none 1 [1]).1 = Outcome.buildError "Unknown status." ∧
    (watch srcUnknown none 1 [2]).1 = Outcome.buildError "Unknown status." ∧
    (watch srcUnknown none 1 [1]).1 = (watch srcUnknown none 1 [2]).1 := by
  have h1 : (watch srcUnknown none 1 [1]).1 = Outcome.buildError "Unknown status." := by
    simp [watch, watchLoop, processRound, processId, queryState, okState,
      initState, eqAsSets, finishResult, ledgerGet, ledgerSet, terminalStatuses,
      srcUnknown, List.dedup]
  have h2 : (watch srcUnknown none 1 [2]).1 = Outcome.buildError "Unknown status." := by
    simp [watch, watchLoop, processRound, processId, queryState, okState,
      initState, eqAsSets, finishResult, ledgerGet, ledgerSet, terminalStatuses,
      srcUnknown, List.dedup]
  exact ⟨h1, h2, h1.trans h2.symm⟩

/-- C3 (amended): if some query of the watch succeeded and returned status
`"unknown"`, the watch fails immediately with the build exception whose fixed
message is `"Unknown status."` (the error does not carry the identifier);
that query is the last one performed — no retry and no further queries in
that round or later. -/
theorem C3_unknown_aborts (src : StatusSource) (ia : Option Nat) (fuel : Nat)
    (build_ids : List BuildId) (q : Nat × BuildId)
    (hq : q ∈ (watch src ia fuel build_ids).2.queries)
    (hok : okQuery src q = true)
    (hunk : (src q.1 q.2).status = "unknown") :
    (watch src ia fuel build_ids).1 = Outcome.buildError "Unknown status." ∧
    (watch src ia fuel build_ids).2.queries.getLast? = some q ∧
    (∀ q' ∈ (watch src ia fuel build_ids).2.queries, q' ≠ q →
      goodQuery src q' = true) := by
  obtain ⟨hInv, hExit⟩ := watch_main src ia fuel build_ids
  have hbadq : goodQuery src q = false := by
    simp [goodQuery, hok, hunk]
  rcases hExit with ⟨hClean, _⟩ | ⟨pre, q0, hqs, hCleanPre, hcases⟩
  · rw [hClean q hq] at hbadq; cases hbadq
  · have hq0 : q = q0 := by
      rw [hqs] at hq
      rcases List.mem_append.mp hq with h' | h'
      · rw [hCleanPre q h'] at hbadq; cases hbadq
      · exact List.mem_singleton.mp h'
    subst hq0
    rcases hcases with ⟨hbad, _⟩ | ⟨_, _, ho⟩
    · rw [hok] at hbad; cases hbad
    · refine ⟨ho, ?_, ?_⟩
      · rw [hqs, List.getLast?_concat]
      · intro q' hq' hne
        rw [hqs] at hq'
        rcases List.mem_append.mp hq' with h' | h'
        · exact hCleanPre q' h'
        · exact absurd (List.mem_singleton.mp h') hne

/-- C3 witness: watching build 1 against `srcUnknown` hits an `"unknown"`
status at the first query and aborts exactly as the amended claim states. -/
theorem C3_unknown_aborts_witness :
    (0, 1) ∈ (watch srcUnknown none 1 [1]).2.queries ∧
    okQuery srcUnknown (0, 1) = true ∧
    (srcUnknown 0 1).status = "unknown" ∧
    (watch srcUnknown none 1 [1]).1 = Outcome.buildError "Unknown status." ∧
    (watch srcUnknown none 1 [1]).2.queries.getLast? = some (0, 1) := by
  have hq : (0, 1) ∈ (watch srcUnknown none 1 [1]).2.queries := by
    simp [watch, watchLoop, processRound, processId, queryState, okState,
      initState, eqAsSets, finishResult, ledgerGet, ledgerSet, terminalStatuses,
      srcUnknown, List.dedup]
  have h := C3_unknown_aborts srcUnknown none 1 [1] (0, 1) hq rfl rfl
  exact ⟨hq, rfl, rfl, h.1, h.2.1⟩

/-- C4: if some query of the watch came back with a non-ok output, the watch
fails immediately with the request exception whose message carries the
failing identifier and the underlying error detail; that query is the last
one performed — not retried, and no further identifiers are queried. -/
theorem C4_retrieval_aborts (src : StatusSource) (ia : Option Nat) (fuel : Nat)
    (build_ids : List BuildId) (q : Nat × BuildId)
    (hq : q ∈ (watch src ia fuel build_ids).2.queries)
    (hbad : okQuery src q = false) :
    (watch src ia fuel build_ids).1 =
      Outcome.requestError (reqErrMsg q.2 (src q.1 q.2).error) ∧
    (watch src ia fuel build_ids).2.queries.getLast? = some q ∧
    (∀ q' ∈ (watch src ia fuel build_ids).2.queries, q' ≠ q →
      goodQuery src q' = true) := by
  obtain ⟨hInv, hExit⟩ := watch_main src ia fuel build_ids
  have hbadq : goodQuery src q = false := by
    simp [goodQuery, hbad]
  rcases hExit with ⟨hClean, _⟩ | ⟨pre, q0, hqs, hCleanPre, hcases⟩
  · rw [hClean q hq] at hbadq; cases hbadq
  · have hq0 : q = q0 := by
      rw [hqs] at hq
      rcases List.mem_append.mp hq with h' | h'
      · rw [hCleanPre q h'] at hbadq; cases hbadq
      · exact List.mem_singleton.mp h'
    subst hq0
    rcases hcases with ⟨_, ho⟩ | ⟨hok0, _, _⟩
    · refine ⟨ho, ?_, ?_⟩
      · rw [hqs, List.getLast?_concat]
      · intro q' hq' hne
        rw [hqs] at hq'
        rcases List.mem_append.mp hq' with h' | h'
        · exact hCleanPre q' h'
        · exact absurd (List.mem_singleton.mp h') hne
    · rw [hok0] at hbad; cases hbad

/-- C4 witness: watching build 7 against `srcDown` fails on the first query
with the request error carrying the identifier 7 and the detail. -/
theorem C4_retrieval_aborts_witness :
    (0, 7) ∈ (watch srcDown none 1 [7]).2.queries ∧
    okQuery srcDown (0, 7) = false ∧
    (watch srcDown none 1 [7]).1 =
      Outcome.requestError (reqErrMsg 7 "boom") ∧
    (watch srcDown none 1 [7]).2.queries.getLast? = some (0, 7) := by
  have hq : (0, 7) ∈ (watch srcDown none 1 [7]).2.queries := by
    simp [watch, watchLoop, processRound, processId, queryState, okState,
      initState, eqAsSets, finishResult, ledgerGet, ledgerSet, terminalStatuses,
      srcDown, List.dedup]
  have h := C4_retrieval_aborts srcDown none 1 [7] (0, 7) hq rfl
  exact ⟨hq, rfl, h.1, h.2.1⟩

/-- C2: in a watch where every query succeeds, no status is `"unknown"`, no
interruption is scheduled, and from round `N` on every status is terminal,
the Failed List is exactly the identifiers whose queries returned `"failed"`,
in discovery order and each exactly once; if it is non-empty the watch raises
the build exception enumerating it, otherwise the watch returns success. -/
theorem C2_partial_failures (src : StatusSource) (N fuel : Nat)
    (build_ids : List BuildId)
    (hok : ∀ r, ∀ id ∈ build_ids, (src r id).output = "ok")
    (hunk : ∀ r, ∀ id ∈ build_ids, (src r id).status ≠ "unknown")
    (hterm : ∀ r, N ≤ r → ∀ id ∈ build_ids,
      terminalStatuses.contains (src r id).status = true)
    (hfuel : N < fuel) :
    (watch src none fuel build_ids).2.failed_ids =
      ((watch src none fuel build_ids).2.queries.filter (okFailedQuery src)).map
        Prod.snd ∧
    (watch src none fuel build_ids).2.failed_ids.Nodup ∧
    ((watch src none fuel build_ids).2.failed_ids ≠ [] →
      (watch src none fuel build_ids).1 =
        Outcome.buildError
          (partialMsg (watch src none fuel build_ids).2.failed_ids)) ∧
    ((watch src none fuel build_ids).2.failed_ids = [] →
      (watch src none fuel build_ids).1 = Outcome.success) := by
  have hok' : ∀ r, ∀ id ∈ build_ids.dedup, (src r id).output = "ok" :=
    fun r id hid => hok r id (List.mem_dedup.mp hid)
  have hunk' : ∀ r, ∀ id ∈ build_ids.dedup, (src r id).status ≠ "unknown" :=
    fun r id hid => hunk r id (List.mem_dedup.mp hid)
  have hterm' : ∀ r, N ≤ r → ∀ id ∈ build_ids.dedup,
      terminalStatuses.contains (src r id).status = true :=
    fun r hr id hid => hterm r hr id (List.mem_dedup.mp hid)
  obtain ⟨stf, heqn, _⟩ := watchLoop_term src build_ids.dedup N hok' hunk' hterm'
    fuel 0 initState (inv_init _ _) (Nat.zero_le N) (by omega)
  have hw : watch src none fuel build_ids = finishResult stf := heqn
  obtain ⟨hInv, _⟩ := watch_main src none fuel build_ids
  refine ⟨hInv.failedChar, failed_nodup_of_inv hInv, ?_, ?_⟩
  · intro hne
    have hni : ¬ stf.failed_ids.isEmpty = true := by
      intro h
      rw [hw, finishResult_snd] at hne
      exact hne (List.isEmpty_iff.mp h)
    rw [hw, finishResult_fst, finishResult_snd, if_neg hni]
  · intro hemp
    rw [hw, finishResult_snd] at hemp
    rw [hw, finishResult_fst, if_pos (List.isEmpty_iff.mpr hemp)]

/-- C2 witness: watching `[201, 202]` against `srcC2` ends with Failed List
`[202]` and the build exception enumerating exactly it. -/
theorem C2_partial_failures_witness :
    (watch srcC2 none 2 [201, 202]).2.failed_ids = [202] ∧
    (watch srcC2 none 2 [201, 202]).1 =
      Outcome.buildError "Build(s) 202 failed." := by
  have hfi : (watch srcC2 none 2 [201, 202]).2.failed_ids = [202] := by
    simp [watch, watchLoop, processRound, processId, queryState, okState,
      initState, eqAsSets, finishResult, ledgerGet, ledgerSet, terminalStatuses,
      srcC2, List.dedup]
  have hok : ∀ r, ∀ id ∈ ([201, 202] : List BuildId), (srcC2 r id).output = "ok" := by
    intro r id _
    unfold srcC2
    split_ifs <;> rfl
  have hunk : ∀ r, ∀ id ∈ ([201, 202] : List BuildId),
      (srcC2 r id).status ≠ "unknown" := by
    intro r id _
    unfold srcC2
    split_ifs <;> simp
  have hterm : ∀ r, 1 ≤ r → ∀ id ∈ ([201, 202] : List BuildId),
      terminalStatuses.contains (srcC2 r id).status = true := by
    intro r hr id _
    unfold srcC2
    rw [if_neg (by omega : ¬ r = 0)]
    by_cases h2 : id = 202
    · rw [if_pos h2]; rfl
    · rw [if_neg h2]; rfl
  have h := C2_partial_failures srcC2 1 2 [201, 202] hok hunk hterm (by omega)
  have ho := h.2.2.1 (by rw [hfi]; simp)
  rw [hfi] at ho
  refine ⟨hfi, ?_⟩
  rw [ho]
  decide

/-- C1 counterexample: `srcFailOnce` reports only recognized statuses, never
a retrieval error and never `"unknown"`, and from round 1 on reports every
identifier as `"succeeded"` — yet watching `[1]` raises the partial build
failure exception instead of returning success, because the `"failed"`
answer of round 0 is terminal and is never re-queried. -/
theorem C1_counterexample :
    (∀ r id, (srcFailOnce r id).output = "ok" ∧
      (srcFailOnce r id).status ≠ "unknown") ∧
    (∀ r id, 1 ≤ r → (srcFailOnce r id).status = "succeeded") ∧
    (watch srcFailOnce none 2 [1]).1 = Outcome.buildError "Build(s) 1 failed." ∧
    (watch srcFailOnce none 2 [1]).1 ≠ Outcome.success := by
  have h3 : (watch srcFailOnce none 2 [1]).1 =
      Outcome.buildError "Build(s) 1 failed." := by
    simp only [watch, List.dedup]
    simp [watchLoop, processRound, processId, queryState, okState,
      initState, eqAsSets, finishResult, ledgerGet, ledgerSet, terminalStatuses,
      srcFailOnce, partialMsg, joinIds] <;> decide
  refine ⟨?_, ?_, h3, ?_⟩
  · intro r id
    unfold srcFailOnce
    split_ifs <;> simp
  · intro r id hr
    unfold srcFailOnce
    rw [if_neg (by omega : ¬ r = 0)]
  · rw [h3]
    simp

/-- C1 (amended): if the Status Source reports only recognized statuses,
never a retrieval error, never `"unknown"`, never `"failed"`, and from some
round `N` on reports `"succeeded"` for every watched identifier, then a
non-interrupted watch with more than `N` rounds of fuel returns success with
the Done Set equal to the Watch Set. -/
theorem C1_all_succeed (src : StatusSource) (N fuel : Nat)
    (build_ids : List BuildId)
    (hne : build_ids ≠ [])
    (hok : ∀ r, ∀ id ∈ build_ids, (src r id).output = "ok")
    (hunk : ∀ r, ∀ id ∈ build_ids, (src r id).status ≠ "unknown")
    (hnofail : ∀ r, ∀ id ∈ build_ids, (src r id).status ≠ "failed")
    (hsucc : ∀ r, N ≤ r → ∀ id ∈ build_ids, (src r id).status = "succeeded")
    (hfuel : N < fuel) :
    (watch src none fuel build_ids).1 = Outcome.success ∧
    eqAsSets build_ids.dedup (watch src none fuel build_ids).2.done = true := by
  have hok' : ∀ r, ∀ id ∈ build_ids.dedup, (src r id).output = "ok" :=
    fun r id hid => hok r id (List.mem_dedup.mp hid)
  have hunk' : ∀ r, ∀ id ∈ build_ids.dedup, (src r id).status ≠ "unknown" :=
    fun r id hid => hunk r id (List.mem_dedup.mp hid)
  have hterm' : ∀ r, N ≤ r → ∀ id ∈ build_ids.dedup,
      terminalStatuses.contains (src r id).status = true := by
    intro r hr id hid
    rw [hsucc r hr id (List.mem_dedup.mp hid)]
    rfl
  obtain ⟨stf, heqn, heqset⟩ := watchLoop_term src build_ids.dedup N hok' hunk'
    hterm' fuel 0 initState (inv_init _ _) (Nat.zero_le N) (by omega)
  have hw : watch src none fuel build_ids = finishResult stf := heqn
  obtain ⟨hInv, _⟩ := watch_main src none fuel build_ids
  have hfe : (watch src none fuel build_ids).2.failed_ids = [] := by
    rw [hInv.failedChar]
    have hnil : (watch src none fuel build_ids).2.queries.filter
        (okFailedQuery src) = [] := by
      rw [List.filter_eq_nil_iff]
      intro q hq
      have hidq : q.2 ∈ build_ids := List.dedup_subset _ (hInv.qIds q hq)
      simp [okFailedQuery, hnofail q.1 q.2 hidq]
    rw [hnil]
    rfl
  constructor
  · rw [hw, finishResult_snd] at hfe
    rw [hw, finishResult_fst, if_pos (List.isEmpty_iff.mpr hfe)]
  · rw [hw, finishResult_snd]
    exact heqset

/-- C1 witness: watching `[101]` against `srcSlowOk` with fuel 2 returns
success with Done Set equal to the Watch Set. -/
theorem C1_all_succeed_witness :
    ([101] : List BuildId) ≠ [] ∧
    (watch srcSlowOk none 2 [101]).1 = Outcome.success ∧
    eqAsSets ([101] : List BuildId).dedup
      (watch srcSlowOk none 2 [101]).2.done = true := by
  have hok : ∀ r, ∀ id ∈ ([101] : List BuildId), (srcSlowOk r id).output = "ok" := by
    intro r id _
    unfold srcSlowOk
    split_ifs <;> rfl
  have hunk : ∀ r, ∀ id ∈ ([101] : List BuildId),
      (srcSlowOk r id).status ≠ "unknown" := by
    intro r id _
    unfold srcSlowOk
    split_ifs <;> simp
  have hnofail : ∀ r, ∀ id ∈ ([101] : List BuildId),
      (srcSlowOk r id).status ≠ "failed" := by
    intro r id _
    unfold srcSlowOk
    split_ifs <;> simp
  have hsucc : ∀ r, 1 ≤ r → ∀ id ∈ ([101] : List BuildId),
      (srcSlowOk r id).status = "succeeded" := by
    intro r hr id _
    unfold srcSlowOk
    rw [if_neg (by omega : ¬ r = 0)]
  have h := C1_all_succeed srcSlowOk 1 2 [101] (by simp) hok hunk hnofail hsucc
    (by omega)
  exact ⟨by simp, h.1, h.2⟩

/-- C5: if a cancellation signal arrives at any suspension point actually
reached by the run — a status query or the inter-round sleep — the watch
returns the normal early-exit outcome: no partial build failure exception
and no other error is raised, whatever was already accumulated. -/
theorem C5_interruption_no_error (src : StatusSource) (fuel : Nat)
    (build_ids : List BuildId) (k : Nat)
    (hk : k < (watch src none fuel build_ids).2.points) :
    (watch src (some k) fuel build_ids).1 = Outcome.interrupted ∧
    Outcome.isError Outcome.interrupted = false ∧
    (∀ m, (watch src (some k) fuel build_ids).1 ≠ Outcome.buildError m) ∧
    (∀ m, (watch src (some k) fuel build_ids).1 ≠ Outcome.requestError m) := by
  have h : (watch src (some k) fuel build_ids).1 = Outcome.interrupted :=
    (watchLoop_agree src build_ids.dedup k fuel 0 initState (Nat.zero_le k)).1 hk
  refine ⟨h, rfl, ?_, ?_⟩ <;> intro m <;> rw [h] <;> simp

/-- C5 witness: the uninterrupted watch of `[1]` against `srcPending`
traverses suspension point 0, and the watch interrupted there returns the
normal early-exit outcome. -/
theorem C5_interruption_no_error_witness :
    0 < (watch srcPending none 1 [1]).2.points ∧
    (watch srcPending (some 0) 1 [1]).1 = Outcome.interrupted := by
  have hk : 0 < (watch srcPending none 1 [1]).2.points := by
    simp [watch, watchLoop, processRound, processId, queryState, okState,
      initState, eqAsSets, finishResult, ledgerGet, ledgerSet, terminalStatuses,
      srcPending, List.dedup]
  exact ⟨hk, (C5_interruption_no_error srcPending 1 [1] 0 hk).1⟩

/-- C9: the top-level handler renders a request exception (status retrieval
error) with exit code 1 and the build exceptions (unknown status, partial
build failure) with exit code 4; all codes are non-zero, the build-error
code differs from the transport code, and the partial-failure message
mentions every failed identifier. -/
theorem C9_error_rendering :
    (∀ m, handleWatchOutcome (Outcome.requestError m) =
      some ⟨"\nSomething went wrong:" ++ "\nError: " ++ m ++ "\n", 1⟩) ∧
    handleWatchOutcome (Outcome.buildError "Unknown status.") =
      some ⟨"\nBuild error: " ++ "Unknown status." ++ "\n", 4⟩ ∧
    (1 : Nat) ≠ 0 ∧ (4 : Nat) ≠ 0 ∧ (4 : Nat) ≠ 1 ∧
    (∀ l : List BuildId, l ≠ [] →
      ∃ r, handleWatchOutcome (Outcome.buildError (partialMsg l)) = some r ∧
        r.code = 4 ∧ r.code ≠ 0 ∧ r.code ≠ 1 ∧
        ∀ id ∈ l, Mentions r.message (toString id)) := by
  refine ⟨fun m => rfl, rfl, by decide, by decide, by decide, ?_⟩
  intro l hl
  refine ⟨⟨"\nBuild error: " ++ partialMsg l ++ "\n", 4⟩, rfl, rfl,
    by simp, by simp, ?_⟩
  intro id hid
  refine Mentions.append_right _ (Mentions.append_left _ ?_)
  unfold partialMsg
  exact Mentions.append_right _ (Mentions.append_left _ (joinIds_mentions l id hid))

/-- C9 witness: the rendering of the partial build failure for `[2, 7]`
carries code 4 and mentions both identifiers. -/
theorem C9_error_rendering_witness :
    ([2, 7] : List BuildId) ≠ [] ∧
    (∃ r, handleWatchOutcome (Outcome.buildError (partialMsg [2, 7])) = some r ∧
      r.code = 4 ∧ r.code ≠ 0 ∧ r.code ≠ 1 ∧
      ∀ id ∈ ([2, 7] : List BuildId), Mentions r.message (toString id)) := by
  refine ⟨by simp, C9_error_rendering.2.2.2.2.2 [2, 7] (by simp)⟩
